import Mathlib

/-
Shallow embedding of strichliste-django (src/strichliste/strichliste/views.py):
a tally/ledger service with users holding balances mutated by single- and
double-entry transaction creation.  The serializers and models modules are not
part of the sources; the few facts needed from them (value validation, the
user-not-found error, the dict shapes and the reconciliation sum) are modelled
from the spec and marked as such.
-/

namespace Strichliste

/-- Allowed-range configuration of the transaction value validator; the concrete
bounds live in the missing serializers module, so they are kept abstract. -/
structure Config where
  lower : Int
  upper : Int
deriving Repr, DecidableEq

/-- Row of the User model: id, unique name, optional mail address, running
balance, active flag. -/
structure User where
  id : Nat
  name : String
  mail_address : Option String
  balance : Int
  active : Bool
deriving Repr, DecidableEq

/-- Row of the Transaction model: id, owning user id, signed value, optional
back-reference to the paired row of a double entry. -/
structure Transaction where
  id : Nat
  user : Nat
  value : Int
  double_entry_id : Option Nat
deriving Repr, DecidableEq

/-- The durable store: user rows, transaction rows, and the next transaction
primary key handed out on insert. -/
structure Store where
  users : List User
  transactions : List Transaction
  nextTxId : Nat
deriving Repr, DecidableEq

/-- Errors raised during transaction creation: UserNotFound,
TransactionValueZero and TransactionValueError of the serializers module. -/
inductive TxError where
  | userNotFound
  | valueZero
  | valueOutOfRange
deriving Repr, DecidableEq

/-- Modelled from the spec: the serializers module is not under src/.  The
spec's ValueValidator fails with ValueZero when the value is zero and with
ValueOutOfRange when it falls outside the configured allowed range; serializer
validation of a missing user is subsumed by the explicit user lookups in the
views, which the spec maps to UserNotFound. -/
def validate (cfg : Config) (v : Int) : Except TxError Unit :=
  if v = 0 then Except.error TxError.valueZero
  else if v < cfg.lower ∨ cfg.upper < v then Except.error TxError.valueOutOfRange
  else Except.ok ()

/-- Lookup User.objects.get(pk=uid), with the missing row as none. -/
def getUser (s : Store) (uid : Nat) : Option User :=
  s.users.find? (fun u => u.id == uid)

/-- Insertion of a fresh transaction row (serializer.save()): the row receives
the next primary key. -/
def addTransaction (s : Store) (uid : Nat) (v : Int) (de : Option Nat) :
    Store × Transaction :=
  let t : Transaction := { id := s.nextTxId, user := uid, value := v, double_entry_id := de }
  ({ s with transactions := s.transactions ++ [t], nextTxId := s.nextTxId + 1 }, t)

/-- Update-in-place of an existing transaction row by primary key
(instance.save() on an already persisted instance). -/
def saveTransactionRow (s : Store) (t : Transaction) : Store :=
  { s with transactions := s.transactions.map (fun x => if x.id == t.id then t else x) }

/-- Write-back of an in-memory user object (user.save()): the row with the same
primary key is overwritten with the object's current field values. -/
def saveUserRow (s : Store) (u : User) : Store :=
  { s with users := s.users.map (fun x => if x.id == u.id then u else x) }

/-- Django's transaction.atomic() scope: when the body raises, every write made
inside the scope is rolled back and the store is restored to its state at
entry; otherwise the body's writes commit. -/
def atomic {α : Type} (s : Store) (body : Store → Store × Except TxError α) :
    Store × Except TxError α :=
  match body s with
  | (s1, Except.ok a) => (s1, Except.ok a)
  | (_, Except.error e) => (s, Except.error e)

/-- Body of create_single_entry_transaction (views.py lines 145-155): fetch the
user (a missing user surfaces as UserNotFound), validate the value, save the
row, bump the in-memory balance and write the user back. -/
def singleEntryBody (cfg : Config) (user_id : Nat) (value : Int) (s : Store) :
    Store × Except TxError Transaction :=
  match getUser s user_id with
  | none => (s, Except.error TxError.userNotFound)
  | some user =>
    match validate cfg value with
    | Except.error e => (s, Except.error e)
    | Except.ok _ =>
      let st := addTransaction s user_id value none
      let user2 := { user with balance := user.balance + value }
      (saveUserRow st.1 user2, Except.ok st.2)

/-- UserTransactionViewSet.create_single_entry_transaction (views.py 145-155). -/
def create_single_entry_transaction (cfg : Config) (s : Store) (user_id : Nat)
    (value : Int) : Store × Except TxError Transaction :=
  atomic s (singleEntryBody cfg user_id value)

/-- Body of create_double_entry_transactions (views.py lines 157-181): fetch dst
then src, validate both legs' values, save leg1 then leg2 (leg2 back-references
leg1), write leg2's id back onto leg1, then update the two in-memory account
objects fetched at entry and save them in order: src first, dst second. -/
def doubleEntryBody (cfg : Config) (src_account_id dst_account_id : Nat)
    (value : Int) (s : Store) : Store × Except TxError Transaction :=
  match getUser s dst_account_id with
  | none => (s, Except.error TxError.userNotFound)
  | some dst_account =>
    match getUser s src_account_id with
    | none => (s, Except.error TxError.userNotFound)
    | some src_account =>
      match validate cfg value with
      | Except.error e => (s, Except.error e)
      | Except.ok _ =>
        match validate cfg (-value) with
        | Except.error e => (s, Except.error e)
        | Except.ok _ =>
          let st1 := addTransaction s src_account.id value none
          let st2 := addTransaction st1.1 dst_account.id (-value) (some st1.2.id)
          let tx1f := { st1.2 with double_entry_id := some st2.2.id }
          let s3 := saveTransactionRow st2.1 tx1f
          let src2 := { src_account with balance := src_account.balance + value }
          let s4 := saveUserRow s3 src2
          let dst2 := { dst_account with balance := dst_account.balance + (-value) }
          (saveUserRow s4 dst2, Except.ok tx1f)

/-- UserTransactionViewSet.create_double_entry_transactions (views.py 157-181). -/
def create_double_entry_transactions (cfg : Config) (s : Store)
    (src_account_id dst_account_id : Nat) (value : Int) :
    Store × Except TxError Transaction :=
  atomic s (doubleEntryBody cfg src_account_id dst_account_id value)

/-- Request body of POST /users/\x7bid\x7d/transactions: value and optional dst. -/
structure TxRequest where
  value : Option Int
  dst : Option Nat
deriving Repr, DecidableEq

/-- Status mapping of the except clauses in UserTransactionViewSet.create. -/
def statusOfError : TxError → Nat
  | TxError.userNotFound => 404
  | TxError.valueZero => 400
  | TxError.valueOutOfRange => 403

/-- UserTransactionViewSet.create (views.py lines 113-143): 400 when value is
missing, otherwise dispatch on the presence of dst, mapping raised errors to
HTTP statuses (404 / 400 / 403) and success to 201 with the created record. -/
def userTransactions_create (cfg : Config) (s : Store) (user_pk : Nat)
    (req : TxRequest) : Store × Nat × Option Transaction :=
  match req.value with
  | none => (s, 400, none)
  | some value =>
    match req.dst with
    | none =>
      match create_single_entry_transaction cfg s user_pk value with
      | (s1, Except.ok t) => (s1, 201, some t)
      | (s1, Except.error e) => (s1, statusOfError e, none)
    | some dst =>
      match create_double_entry_transactions cfg s user_pk dst value with
      | (s1, Except.ok t) => (s1, 201, some t)
      | (s1, Except.error e) => (s1, statusOfError e, none)

/-- UserTransactionViewSet.retrieve (views.py lines 97-111).  The user lookup is
not wrapped in try/except: a missing user raises User.DoesNotExist, which no
handler in this view catches; that uncaught outcome is modelled as none, while
some carries the (status, body) of a proper response. -/
def userTransactions_retrieve (s : Store) (user_pk pk : Nat) :
    Option (Nat × Option Transaction) :=
  match getUser s user_pk with
  | none => none
  | some user =>
    let txs := s.transactions.filter (fun t => t.user == user.id && t.id == pk)
    if txs.length = 0 then some (404, none)
    else some (200, txs.head?)

/-- Modelled from the spec: the models module is not under src/; the summary
dict (to_dict) carries id, name and balance and omits the mail address. -/
structure UserSummary where
  id : Nat
  name : String
  balance : Int
deriving Repr, DecidableEq

/-- Modelled from the spec: the full dict (to_full_dict) also carries the mail
address. -/
structure UserFull where
  id : Nat
  name : String
  mail_address : Option String
  balance : Int
deriving Repr, DecidableEq

/-- Modelled from the spec: User.to_dict, the summary serialization. -/
def User.to_dict (u : User) : UserSummary :=
  { id := u.id, name := u.name, balance := u.balance }

/-- Modelled from the spec: User.to_full_dict, the full serialization. -/
def User.to_full_dict (u : User) : UserFull :=
  { id := u.id, name := u.name, mail_address := u.mail_address, balance := u.balance }

/-- UserViewSet.retrieve (views.py lines 54-66): lookup by id with no filter on
the active flag; 404 when absent, else 200 with the full dict. -/
def users_retrieve (s : Store) (pk : Nat) : Nat × Option UserFull :=
  match getUser s pk with
  | none => (404, none)
  | some u => (200, some u.to_full_dict)

/-- Query parameters steering LimitOffsetPagination; none stands for an absent
or unparsable parameter. -/
structure PageQuery where
  limit : Option Int
  offset : Option Int
deriving Repr, DecidableEq

/-- Response body shape of the paginated list endpoints. -/
structure Page (α : Type) where
  entries : List α
  limit : Nat
  offset : Nat
  overall_count : Nat
deriving Repr, DecidableEq

/-- Limit resolution of rest_framework's LimitOffsetPagination (an external
collaborator): a missing or non-positive parameter falls back to the default
limit, and any supplied value is capped at the hard maximum. -/
def get_limit (maxLimit defaultLimit : Nat) (limitParam : Option Int) : Nat :=
  match limitParam with
  | none => defaultLimit
  | some n => if n ≤ 0 then defaultLimit else min n.toNat maxLimit

/-- Offset resolution of LimitOffsetPagination: missing or negative gives 0. -/
def get_offset (offsetParam : Option Int) : Nat :=
  match offsetParam with
  | none => 0
  | some n => if n < 0 then 0 else n.toNat

/-- paginate_queryset of LimitOffsetPagination: slice items[offset : offset +
limit] and record limit, offset and the total count. -/
def paginate_queryset {α : Type} (maxLimit defaultLimit : Nat) (q : PageQuery)
    (items : List α) : Page α :=
  let l := get_limit maxLimit defaultLimit q.limit
  let o := get_offset q.offset
  { entries := (items.drop o).take l, limit := l, offset := o,
    overall_count := items.length }

/-- UserViewSet.list (views.py lines 38-52): paginates the users with
active=True using max_limit 250 and default_limit 100, serializing the page's
entries as summary dicts. -/
def users_list (s : Store) (q : PageQuery) : Page UserSummary :=
  let page := paginate_queryset 250 100 q (s.users.filter (fun u => u.active))
  { entries := page.entries.map User.to_dict, limit := page.limit,
    offset := page.offset, overall_count := page.overall_count }

/-- UserTransactionViewSet.list (views.py lines 77-95): 404 when the user is
missing, else 200 with the user's transactions paginated with max_limit 250 and
default_limit 100. -/
def user_transactions_list (s : Store) (user_pk : Nat) (q : PageQuery) :
    Nat × Option (Page Transaction) :=
  match getUser s user_pk with
  | none => (404, none)
  | some user =>
    (200, some (paginate_queryset 250 100 q
      (s.transactions.filter (fun t => t.user == user.id))))

/-- TransactionViewSet.list (views.py lines 191-204): all transactions
paginated with max_limit 250 and default_limit 100. -/
def transactions_list (s : Store) (q : PageQuery) : Page Transaction :=
  paginate_queryset 250 100 q s.transactions

/-- Modelled from the spec: the models module is not under src/;
User.calc_balance is the sum of the signed values of the user's transactions
(the reconciliation sum). -/
def calc_balance (s : Store) (uid : Nat) : Int :=
  ((s.transactions.filter (fun t => t.user == uid)).map Transaction.value).sum

/-- DebugViewSet.check_balance (views.py lines 229-232): report whether every
user's stored balance matches the recomputed reconciliation sum. -/
def check_balance (s : Store) : String :=
  if s.users.all (fun u => u.balance == calc_balance s u.id) then "Everything matches"
  else "Differences detected"

/-- Creation operations reachable through the POST endpoint. -/
inductive Op where
  | single (uid : Nat) (v : Int)
  | double (src dst : Nat) (v : Int)
deriving Repr, DecidableEq

/-- Dispatch of one creation operation. -/
def applyOp (cfg : Config) (s : Store) : Op → Store × Except TxError Transaction
  | Op.single uid v => create_single_entry_transaction cfg s uid v
  | Op.double a b v => create_double_entry_transactions cfg s a b v

/-- Sequential application of creation operations; a failed operation leaves
the store unchanged (the atomic scope rolls it back), so the surviving writes
are exactly those of the successful operations. -/
def runOps (cfg : Config) (s : Store) : List Op → Store
  | [] => s
  | op :: rest => runOps cfg (applyOp cfg s op).1 rest

/-- Double-entry pairing invariant of spec sections 3 and 8, for one
transaction: its back-reference, when set, points at a row that exists, negates
its value, points back, and belongs to a different user. -/
def partnerOk (s : Store) (t : Transaction) : Prop :=
  ∀ d ∈ t.double_entry_id, ∃ t2 ∈ s.transactions,
    t2.id = d ∧ t2.value = -t.value ∧ t2.double_entry_id = some t.id ∧ t2.user ≠ t.user

/-- Pairing invariant over the whole store. -/
def PairInv (s : Store) : Prop := ∀ t ∈ s.transactions, partnerOk s t

/-- Well-formedness: every persisted transaction id is below the next key. -/
def TxIdsBounded (s : Store) : Prop := ∀ t ∈ s.transactions, t.id < s.nextTxId

/-- Reconciliation invariant of spec section 8: every stored balance equals the
sum of the user's transaction values. -/
def Reconciled (s : Store) : Prop := ∀ u ∈ s.users, u.balance = calc_balance s u.id

/-- Absence of self-transfers: a double entry names two distinct accounts. -/
def Op.noSelf : Op → Prop
  | Op.single _ _ => True
  | Op.double a b _ => a ≠ b

instance (s : Store) (t : Transaction) : Decidable (partnerOk s t) := by
  unfold partnerOk; infer_instance

instance (s : Store) : Decidable (PairInv s) := by
  unfold PairInv; infer_instance

instance (s : Store) : Decidable (TxIdsBounded s) := by
  unfold TxIdsBounded; infer_instance

instance (s : Store) : Decidable (Reconciled s) := by
  unfold Reconciled; infer_instance

instance : (op : Op) → Decidable op.noSelf
  | Op.single _ _ => isTrue trivial
  | Op.double a b _ => (inferInstance : Decidable (a ≠ b))

/-- Validator configuration used by the concrete instances below. -/
def cfgW : Config := { lower := -1000, upper := 1000 }

/-- Concrete user rows and stores used by the witness instances. -/
def aliceW : User := { id := 1, name := "a", mail_address := none, balance := 0, active := true }

def bobW : User := { id := 2, name := "b", mail_address := none, balance := 0, active := true }

def carolW : User := { id := 3, name := "c", mail_address := none, balance := 7, active := false }

def emptyW : Store := { users := [], transactions := [], nextTxId := 0 }

def storeOneW : Store := { users := [aliceW], transactions := [], nextTxId := 0 }

def storeTwoW : Store := { users := [aliceW, bobW], transactions := [], nextTxId := 0 }

def storeInactiveW : Store := { users := [carolW], transactions := [], nextTxId := 0 }

/-- Written from the spec's words for the amended claim about POST
/users/\x7bid\x7d/transactions: the status is 400 when value is missing, then 404
when any referenced user is missing (this check runs before value validation in
the views), then 400 for a zero value, then 403 for a value with either leg out
of the configured range, and otherwise 201. -/
def specStatus (cfg : Config) (s : Store) (user_pk : Nat) (req : TxRequest) : Nat :=
  match req.value with
  | none => 400
  | some v =>
    match req.dst with
    | none =>
      if getUser s user_pk = none then 404
      else if v = 0 then 400
      else if v < cfg.lower ∨ cfg.upper < v then 403
      else 201
    | some dst =>
      if getUser s dst = none ∨ getUser s user_pk = none then 404
      else if v = 0 then 400
      else if v < cfg.lower ∨ cfg.upper < v then 403
      else if -v < cfg.lower ∨ cfg.upper < -v then 403
      else 201

/-! Helper lemmas about the atomic scope, the lookups and the row writes. -/

theorem atomic_error_fst {α : Type} (s : Store) (body : Store → Store × Except TxError α)
    (e : TxError) (h : (atomic s body).2 = Except.error e) : (atomic s body).1 = s := by
  unfold atomic at h ⊢
  rcases hb : body s with ⟨s1, r⟩
  rw [hb] at h
  cases r with
  | error e2 => rfl
  | ok a => simp at h

theorem atomic_ok_inv {α : Type} {s s1 : Store} {body : Store → Store × Except TxError α}
    {a : α} (h : atomic s body = (s1, Except.ok a)) : body s = (s1, Except.ok a) := by
  unfold atomic at h
  rcases hb : body s with ⟨s2, r⟩
  rw [hb] at h
  cases r with
  | error e2 => simp at h
  | ok b =>
    obtain ⟨h1, h2⟩ := Prod.mk.injEq .. ▸ h
    rw [h1, h2]

theorem getUser_id {s : Store} {uid : Nat} {u : User} (h : getUser s uid = some u) :
    u.id = uid := by
  unfold getUser at h
  simpa using List.find?_some h

theorem getUser_mem {s : Store} {uid : Nat} {u : User} (h : getUser s uid = some u) :
    u ∈ s.users := by
  unfold getUser at h
  exact List.mem_of_find?_eq_some h

theorem find?_replaceRow_ne (l : List User) (u : User) (uid : Nat) (h : uid ≠ u.id) :
    (l.map (fun x => if x.id == u.id then u else x)).find? (fun x => x.id == uid)
      = l.find? (fun x => x.id == uid) := by
  induction l with
  | nil => rfl
  | cons a t ih =>
    simp only [List.map_cons]
    by_cases ha : a.id = u.id
    · have hfa : (if (a.id == u.id) = true then u else a) = u := by simp [ha]
      rw [hfa, List.find?_cons_of_neg _ (by simpa using Ne.symm h),
        List.find?_cons_of_neg _ (by simp [ha]; exact Ne.symm h)]
      exact ih
    · have hfa : (if (a.id == u.id) = true then u else a) = a := by simp [ha]
      rw [hfa]
      by_cases hx : a.id = uid
      · rw [List.find?_cons_of_pos _ (by simpa using hx),
          List.find?_cons_of_pos _ (by simpa using hx)]
      · rw [List.find?_cons_of_neg _ (by simpa using hx),
          List.find?_cons_of_neg _ (by simpa using hx)]
        exact ih

theorem find?_replaceRow_self (l : List User) (u : User)
    (h : (l.find? (fun x => x.id == u.id)).isSome = true) :
    (l.map (fun x => if x.id == u.id then u else x)).find? (fun x => x.id == u.id)
      = some u := by
  induction l with
  | nil => simp [List.find?] at h
  | cons a t ih =>
    simp only [List.map_cons]
    by_cases ha : a.id = u.id
    · have hfa : (if (a.id == u.id) = true then u else a) = u := by simp [ha]
      rw [hfa, List.find?_cons_of_pos _ (by simp)]
    · have hfa : (if (a.id == u.id) = true then u else a) = a := by simp [ha]
      rw [hfa, List.find?_cons_of_neg _ (by simpa using ha)]
      rw [List.find?_cons_of_neg _ (by simpa using ha)] at h
      exact ih h

theorem getUser_saveUserRow_ne (s : Store) (u : User) (uid : Nat) (h : uid ≠ u.id) :
    getUser (saveUserRow s u) uid = getUser s uid :=
  find?_replaceRow_ne s.users u uid h

theorem getUser_saveUserRow_self (s : Store) (u u0 : User) (h : getUser s u.id = some u0) :
    getUser (saveUserRow s u) u.id = some u := by
  apply find?_replaceRow_self
  unfold getUser at h
  rw [h]
  rfl

theorem map_replaceTx_of_bounded (l : List Transaction) (t : Transaction)
    (h : ∀ x ∈ l, x.id ≠ t.id) :
    l.map (fun x => if x.id == t.id then t else x) = l := by
  induction l with
  | nil => rfl
  | cons a r ih =>
    have ha := h a (by simp)
    rw [List.map_cons, if_neg (by simp [ha]), ih (fun x hx => h x (by simp [hx]))]

theorem getUser_saveTransactionRow (s : Store) (t : Transaction) (uid : Nat) :
    getUser (saveTransactionRow s t) uid = getUser s uid := rfl

theorem singleEntryBody_ok {cfg : Config} {uid : Nat} {v : Int} {s sb : Store}
    {t : Transaction} (h : singleEntryBody cfg uid v s = (sb, Except.ok t)) :
    ∃ user, getUser s uid = some user ∧ validate cfg v = Except.ok () ∧
      t = { id := s.nextTxId, user := uid, value := v, double_entry_id := none } ∧
      sb = saveUserRow
        { s with transactions := s.transactions ++ [t], nextTxId := s.nextTxId + 1 }
        { user with balance := user.balance + v } := by
  unfold singleEntryBody at h
  rcases hg : getUser s uid with _ | user
  · rw [hg] at h; simp at h
  · rw [hg] at h
    cases hv : validate cfg v with
    | error e => rw [hv] at h; simp at h
    | ok uu =>
      cases uu
      rw [hv] at h
      simp only [addTransaction] at h
      rw [Prod.mk.injEq] at h
      obtain ⟨h1, h2⟩ := h
      have ht := Except.ok.inj h2
      subst ht
      exact ⟨user, rfl, rfl, rfl, h1.symm⟩

theorem doubleEntryBody_ok {cfg : Config} {a b : Nat} {v : Int} {s sb : Store}
    {t : Transaction} (h : doubleEntryBody cfg a b v s = (sb, Except.ok t)) :
    ∃ ua ub, getUser s a = some ua ∧ getUser s b = some ub ∧
      validate cfg v = Except.ok () ∧ validate cfg (-v) = Except.ok () ∧
      t = { id := s.nextTxId, user := ua.id, value := v,
            double_entry_id := some (s.nextTxId + 1) } ∧
      sb = saveUserRow (saveUserRow (saveTransactionRow
          { s with
            transactions := (s.transactions ++
              [{ id := s.nextTxId, user := ua.id, value := v, double_entry_id := none }]) ++
              [{ id := s.nextTxId + 1, user := ub.id, value := -v,
                 double_entry_id := some s.nextTxId }],
            nextTxId := s.nextTxId + 1 + 1 } t)
          { ua with balance := ua.balance + v })
          { ub with balance := ub.balance + (-v) } := by
  unfold doubleEntryBody at h
  rcases hgb : getUser s b with _ | ub
  · rw [hgb] at h; simp at h
  · rw [hgb] at h
    rcases hga : getUser s a with _ | ua
    · rw [hga] at h; simp at h
    · rw [hga] at h
      cases hv1 : validate cfg v with
      | error e => rw [hv1] at h; simp at h
      | ok u1 =>
        cases u1
        rw [hv1] at h
        cases hv2 : validate cfg (-v) with
        | error e => rw [hv2] at h; simp at h
        | ok u2 =>
          cases u2
          rw [hv2] at h
          simp only [addTransaction] at h
          rw [Prod.mk.injEq] at h
          obtain ⟨h1, h2⟩ := h
          have ht := Except.ok.inj h2
          subst ht
          exact ⟨ua, ub, rfl, rfl, rfl, rfl, rfl, h1.symm⟩

/-! Claim theorems. -/

/-- C1: a double-entry creation request that fails (with any validation error:
a leg's value or a missing user) leaves the store unchanged: the store after
the call is the store before it, so zero new transaction rows exist and no
user's balance is modified. -/
theorem c1_double_entry_error_leaves_store (cfg : Config) (s : Store) (a b : Nat)
    (v : Int) (e : TxError)
    (h : (create_double_entry_transactions cfg s a b v).2 = Except.error e) :
    (create_double_entry_transactions cfg s a b v).1 = s ∧
    ((create_double_entry_transactions cfg s a b v).1).transactions = s.transactions ∧
    ∀ uid, getUser ((create_double_entry_transactions cfg s a b v).1) uid = getUser s uid := by
  unfold create_double_entry_transactions at h ⊢
  have h1 := atomic_error_fst s (doubleEntryBody cfg a b v) e h
  exact ⟨h1, by rw [h1], fun uid => by rw [h1]⟩

/-- Witness for C1 at a concrete input: in the empty store the double-entry
creation fails with UserNotFound and returns the store unchanged. -/
theorem c1_double_entry_error_leaves_store_witness :
    (create_double_entry_transactions cfgW emptyW 1 2 5).1 = emptyW :=
  (c1_double_entry_error_leaves_store cfgW emptyW 1 2 5 TxError.userNotFound rfl).1

/-- C2 is violated by the code: starting from a reconciled store (one user with
balance 0 and no transactions, where the code's own check_balance reports
agreement), the successful self-transfer POST /users/1/transactions
\x7bvalue: 5, dst: 1\x7d leaves the user's balance at -5 while the sum of their
transaction values is 0, so check_balance reports a difference.  The second
user object is fetched before any write and its save overwrites the first
balance update with a stale value. -/
theorem c2_self_transfer_breaks_reconciliation :
    check_balance storeOneW = "Everything matches" ∧
    (create_double_entry_transactions cfgW storeOneW 1 1 5).2 =
      Except.ok { id := 0, user := 1, value := 5, double_entry_id := some 1 } ∧
    check_balance (create_double_entry_transactions cfgW storeOneW 1 1 5).1 =
      "Differences detected" ∧
    calc_balance (create_double_entry_transactions cfgW storeOneW 1 1 5).1 1 = 0 ∧
    getUser (create_double_entry_transactions cfgW storeOneW 1 1 5).1 1 =
      some { id := 1, name := "a", mail_address := none, balance := -5, active := true } := by
  refine ⟨rfl, rfl, rfl, rfl, rfl⟩

/-- C5 is violated by the code: a self-transfer with a valid nonzero value is
allowed (201-style success) and still creates two transaction rows, but the
user's balance is NOT unaffected: the two balance updates do not cancel because
the second account object was fetched before the first update was written, so
the final balance is the negated value instead of 0. -/
theorem c5_self_transfer_balance_not_preserved :
    (create_double_entry_transactions cfgW storeOneW 1 1 5).2 =
      Except.ok { id := 0, user := 1, value := 5, double_entry_id := some 1 } ∧
    (create_double_entry_transactions cfgW storeOneW 1 1 5).1.transactions.length = 2 ∧
    getUser (create_double_entry_transactions cfgW storeOneW 1 1 5).1 1 =
      some { id := 1, name := "a", mail_address := none, balance := -5, active := true } ∧
    ¬ getUser (create_double_entry_transactions cfgW storeOneW 1 1 5).1 1 = some aliceW := by
  refine ⟨rfl, rfl, rfl, by decide⟩

/-- Counterexample to C3 as stated: a successful self-transfer (an operation
the code accepts) produces a linked pair whose two rows belong to the same
user, so the pairing invariant with its different-user clause fails after a
successful operation. -/
theorem c3_self_transfer_pair_same_user :
    (create_double_entry_transactions cfgW storeOneW 1 1 5).2 =
      Except.ok { id := 0, user := 1, value := 5, double_entry_id := some 1 } ∧
    ¬ PairInv (create_double_entry_transactions cfgW storeOneW 1 1 5).1 := by
  refine ⟨rfl, by decide⟩

/-- Counterexample to C7 as stated: the claim's clause that a zero value gives
status 400 fails when the path user does not exist, because the views look the
user up before validating the value: POST with value 0 to a missing user
returns 404, not 400. -/
theorem c7_zero_value_missing_user_is_404 :
    (userTransactions_create cfgW emptyW 1 { value := some 0, dst := none }).2.1 = 404 ∧
    ¬ (userTransactions_create cfgW emptyW 1 { value := some 0, dst := none }).2.1 = 400 := by
  refine ⟨rfl, by decide⟩

/-- C8 is violated by the code on a missing user: UserTransactionViewSet.retrieve
does not wrap the user lookup in try/except, so GET of a transaction under a
nonexistent user id raises an uncaught User.DoesNotExist (modelled as none)
instead of returning a 404 response; for an existing user and a missing
transaction the 404 response is returned as claimed. -/
theorem c8_retrieve_missing_user_uncaught :
    userTransactions_retrieve emptyW 5 1 = none ∧
    userTransactions_retrieve storeOneW 1 7 = some (404, none) := by
  refine ⟨rfl, rfl⟩

/-- C6: a successful createSingleEntry appends exactly one transaction row,
which is the returned record, with the given user, the given value and a null
double_entry_id, and increments that user's stored balance by the value; a
failing createSingleEntry returns the store unchanged, so row creation and
balance update persist together or not at all. -/
theorem c6_single_entry_success_effect (cfg : Config) (s : Store) (uid : Nat) (v : Int) :
    (∀ s1 t, create_single_entry_transaction cfg s uid v = (s1, Except.ok t) →
      s1.transactions = s.transactions ++ [t] ∧
      t = { id := s.nextTxId, user := uid, value := v, double_entry_id := none } ∧
      ∀ u0, getUser s uid = some u0 →
        getUser s1 uid = some { u0 with balance := u0.balance + v }) ∧
    (∀ s1 e, create_single_entry_transaction cfg s uid v = (s1, Except.error e) → s1 = s) := by
  constructor
  · intro s1 t h
    have hbody := atomic_ok_inv
      (show atomic s (singleEntryBody cfg uid v) = (s1, Except.ok t) from h)
    obtain ⟨user, hg, hv, ht, hsb⟩ := singleEntryBody_ok hbody
    subst hsb
    refine ⟨rfl, ht, ?_⟩
    intro u0 hu0
    rw [hg] at hu0
    obtain rfl := Option.some.inj hu0
    have hid : user.id = uid := getUser_id hg
    have hX : getUser
        ({ s with transactions := s.transactions ++ [t], nextTxId := s.nextTxId + 1 } : Store)
        ({ user with balance := user.balance + v } : User).id = some user := by
      show getUser s user.id = some user
      rw [hid]; exact hg
    have hself := getUser_saveUserRow_self _ _ _ hX
    rw [← hid]
    exact hself
  · intro s1 e h
    have h2 : (atomic s (singleEntryBody cfg uid v)).2 = Except.error e := by
      show (create_single_entry_transaction cfg s uid v).2 = Except.error e
      rw [h]
    have h1 := atomic_error_fst s (singleEntryBody cfg uid v) e h2
    have h3 : (create_single_entry_transaction cfg s uid v).1 = s := h1
    rw [h] at h3
    exact h3

/-- Witness for C6 at a concrete input: creating a single entry of value 5 for
the user with balance 0 appends the one expected row and stores balance 5. -/
theorem c6_single_entry_success_effect_witness :
    (create_single_entry_transaction cfgW storeOneW 1 5).1.transactions =
      storeOneW.transactions ++ [{ id := 0, user := 1, value := 5, double_entry_id := none }] ∧
    getUser (create_single_entry_transaction cfgW storeOneW 1 5).1 1 =
      some { id := 1, name := "a", mail_address := none, balance := 5, active := true } := by
  have happ := (c6_single_entry_success_effect cfgW storeOneW 1 5).1
    (create_single_entry_transaction cfgW storeOneW 1 5).1
    { id := 0, user := 1, value := 5, double_entry_id := none } rfl
  refine ⟨happ.1, ?_⟩
  have hb := happ.2.2 aliceW rfl
  simpa [aliceW] using hb

/-- C4: a successful createDoubleEntry on distinct existing users changes the
src balance by +value and the dst balance by -value, and the returned record is
leg1 as persisted: it is a stored row for the src user with the given value
whose double_entry_id is the id of a stored leg2 row that points back at it,
belongs to the dst user and carries the negated value. -/
theorem c4_double_entry_success_effect (cfg : Config) (s s1 : Store) (a b : Nat)
    (v : Int) (t : Transaction) (ua ub : User) (hab : a ≠ b)
    (h : create_double_entry_transactions cfg s a b v = (s1, Except.ok t))
    (hua : getUser s a = some ua) (hub : getUser s b = some ub) :
    getUser s1 a = some { ua with balance := ua.balance + v } ∧
    getUser s1 b = some { ub with balance := ub.balance + (-v) } ∧
    t ∈ s1.transactions ∧ t.user = a ∧ t.value = v ∧
    ∃ t2 ∈ s1.transactions, t.double_entry_id = some t2.id ∧
      t2.double_entry_id = some t.id ∧ t2.user = b ∧ t2.value = -v := by
  have hbody := atomic_ok_inv
    (show atomic s (doubleEntryBody cfg a b v) = (s1, Except.ok t) from h)
  obtain ⟨ua2, ub2, hga, hgb, hv1, hv2, ht, hsb⟩ := doubleEntryBody_ok hbody
  rw [hua] at hga
  rw [hub] at hgb
  obtain rfl := Option.some.inj hga
  obtain rfl := Option.some.inj hgb
  have hidA : ua.id = a := getUser_id hua
  have hidB : ub.id = b := getUser_id hub
  subst hsb
  have hneA : a ≠ ({ ub with balance := ub.balance + (-v) } : User).id := by
    show a ≠ ub.id
    rw [hidB]; exact hab
  have hneB : ub.id ≠ ({ ua with balance := ua.balance + v } : User).id := by
    show ub.id ≠ ua.id
    rw [hidA, hidB]; exact Ne.symm hab
  refine ⟨?_, ?_, ?_, ?_, ?_, ?_⟩
  · rw [getUser_saveUserRow_ne _ _ a hneA]
    have hX : getUser (saveTransactionRow
        { s with
          transactions := (s.transactions ++
            [{ id := s.nextTxId, user := ua.id, value := v, double_entry_id := none }]) ++
            [{ id := s.nextTxId + 1, user := ub.id, value := -v,
               double_entry_id := some s.nextTxId }],
          nextTxId := s.nextTxId + 1 + 1 } t)
        ({ ua with balance := ua.balance + v } : User).id = some ua := by
      show getUser s ua.id = some ua
      rw [hidA]; exact hua
    have hself := getUser_saveUserRow_self _ _ _ hX
    rw [← hidA]
    exact hself
  · have hmid : getUser (saveUserRow (saveTransactionRow
        { s with
          transactions := (s.transactions ++
            [{ id := s.nextTxId, user := ua.id, value := v, double_entry_id := none }]) ++
            [{ id := s.nextTxId + 1, user := ub.id, value := -v,
               double_entry_id := some s.nextTxId }],
          nextTxId := s.nextTxId + 1 + 1 } t)
        { ua with balance := ua.balance + v })
        ({ ub with balance := ub.balance + (-v) } : User).id = some ub := by
      show getUser (saveUserRow _ { ua with balance := ua.balance + v }) ub.id = some ub
      rw [getUser_saveUserRow_ne _ _ ub.id hneB]
      show getUser s ub.id = some ub
      rw [hidB]; exact hub
    have hself := getUser_saveUserRow_self _ _ _ hmid
    rw [← hidB]
    exact hself
  · subst ht
    simp only [saveUserRow, saveTransactionRow]
    refine List.mem_map.mpr ?_
    refine ⟨{ id := s.nextTxId, user := ua.id, value := v, double_entry_id := none },
      by simp, by simp⟩
  · subst ht
    exact hidA
  · subst ht
    rfl
  · subst ht
    refine ⟨{ id := s.nextTxId + 1, user := ub.id, value := -v,
              double_entry_id := some s.nextTxId }, ?_, rfl, rfl, hidB, rfl⟩
    simp only [saveUserRow, saveTransactionRow]
    refine List.mem_map.mpr ?_
    refine ⟨{ id := s.nextTxId + 1, user := ub.id, value := -v,
              double_entry_id := some s.nextTxId }, by simp, by simp⟩

theorem pairInv_of_transactions_eq {s1 : Store} {l : List Transaction}
    (h : s1.transactions = l)
    (hp : ∀ t ∈ l, ∀ d ∈ t.double_entry_id, ∃ t2 ∈ l,
      t2.id = d ∧ t2.value = -t.value ∧ t2.double_entry_id = some t.id ∧ t2.user ≠ t.user) :
    PairInv s1 := by
  unfold PairInv partnerOk
  rw [h]
  exact hp

theorem txIdsBounded_of_eq {s1 : Store} {l : List Transaction} {n : Nat}
    (h : s1.transactions = l) (hn : s1.nextTxId = n) (hp : ∀ t ∈ l, t.id < n) :
    TxIdsBounded s1 := by
  unfold TxIdsBounded
  rw [h, hn]
  exact hp

theorem create_single_preserves_invariants (cfg : Config) (s : Store) (uid : Nat)
    (v : Int) (hinv : PairInv s) (hb : TxIdsBounded s) :
    PairInv (create_single_entry_transaction cfg s uid v).1 ∧
    TxIdsBounded (create_single_entry_transaction cfg s uid v).1 := by
  rcases hres : create_single_entry_transaction cfg s uid v with ⟨s1, r⟩
  show PairInv s1 ∧ TxIdsBounded s1
  cases r with
  | error e =>
    have h2 : (atomic s (singleEntryBody cfg uid v)).2 = Except.error e := by
      show (create_single_entry_transaction cfg s uid v).2 = Except.error e
      rw [hres]
    have h1 := atomic_error_fst s (singleEntryBody cfg uid v) e h2
    have h3 : (create_single_entry_transaction cfg s uid v).1 = s := h1
    rw [hres] at h3
    obtain rfl : s1 = s := h3
    exact ⟨hinv, hb⟩
  | ok t =>
    have hbody := atomic_ok_inv
      (show atomic s (singleEntryBody cfg uid v) = (s1, Except.ok t) from hres)
    obtain ⟨user, hg, hv, ht, hsb⟩ := singleEntryBody_ok hbody
    subst hsb
    subst ht
    constructor
    · apply pairInv_of_transactions_eq
        (l := s.transactions ++ [⟨s.nextTxId, uid, v, none⟩]) rfl
      intro x hx d hd
      rcases List.mem_append.mp hx with hx1 | hx1
      · obtain ⟨t2, ht2, hprops⟩ := hinv x hx1 d hd
        exact ⟨t2, List.mem_append_left _ ht2, hprops⟩
      · rw [List.mem_singleton] at hx1
        subst hx1
        simp at hd
    · apply txIdsBounded_of_eq
        (l := s.transactions ++ [⟨s.nextTxId, uid, v, none⟩]) rfl rfl
      intro x hx
      rcases List.mem_append.mp hx with hx1 | hx1
      · exact Nat.lt_succ_of_lt (hb x hx1)
      · rw [List.mem_singleton] at hx1
        subst hx1
        exact Nat.lt_succ_self _

theorem create_double_preserves_invariants (cfg : Config) (s : Store) (a b : Nat)
    (v : Int) (hab : a ≠ b) (hinv : PairInv s) (hb : TxIdsBounded s) :
    PairInv (create_double_entry_transactions cfg s a b v).1 ∧
    TxIdsBounded (create_double_entry_transactions cfg s a b v).1 := by
  rcases hres : create_double_entry_transactions cfg s a b v with ⟨s1, r⟩
  show PairInv s1 ∧ TxIdsBounded s1
  cases r with
  | error e =>
    have h2 : (atomic s (doubleEntryBody cfg a b v)).2 = Except.error e := by
      show (create_double_entry_transactions cfg s a b v).2 = Except.error e
      rw [hres]
    have h1 := atomic_error_fst s (doubleEntryBody cfg a b v) e h2
    have h3 : (create_double_entry_transactions cfg s a b v).1 = s := h1
    rw [hres] at h3
    obtain rfl : s1 = s := h3
    exact ⟨hinv, hb⟩
  | ok t =>
    have hbody := atomic_ok_inv
      (show atomic s (doubleEntryBody cfg a b v) = (s1, Except.ok t) from hres)
    obtain ⟨ua, ub, hga, hgb, hv1, hv2, ht, hsb⟩ := doubleEntryBody_ok hbody
    have hidA : ua.id = a := getUser_id hga
    have hidB : ub.id = b := getUser_id hgb
    subst hsb
    subst ht
    have hne : ∀ x ∈ s.transactions,
        x.id ≠ (({ id := s.nextTxId, user := ua.id, value := v,
                   double_entry_id := some (s.nextTxId + 1) } : Transaction)).id :=
      fun x hx => Nat.ne_of_lt (hb x hx)
    have htxs : (saveUserRow (saveUserRow (saveTransactionRow
        { s with
          transactions := (s.transactions ++
            [{ id := s.nextTxId, user := ua.id, value := v, double_entry_id := none }]) ++
            [{ id := s.nextTxId + 1, user := ub.id, value := -v,
               double_entry_id := some s.nextTxId }],
          nextTxId := s.nextTxId + 1 + 1 }
          { id := s.nextTxId, user := ua.id, value := v,
            double_entry_id := some (s.nextTxId + 1) })
        { ua with balance := ua.balance + v })
        { ub with balance := ub.balance + (-v) }).transactions =
        (s.transactions ++
          [{ id := s.nextTxId, user := ua.id, value := v,
             double_entry_id := some (s.nextTxId + 1) }]) ++
          [{ id := s.nextTxId + 1, user := ub.id, value := -v,
             double_entry_id := some s.nextTxId }] := by
      show ((s.transactions ++ [_]) ++ [_]).map _ = _
      rw [List.map_append, List.map_append, map_replaceTx_of_bounded _ _ hne]
      simp
    have huser : (({ ub with balance := ub.balance + (-v) } : User)).id ≠
        (({ ua with balance := ua.balance + v } : User)).id := by
      show ub.id ≠ ua.id
      rw [hidA, hidB]
      exact Ne.symm hab
    constructor
    · apply pairInv_of_transactions_eq htxs
      intro x hx d hd
      have hx3 : x ∈ s.transactions ∨
          x = { id := s.nextTxId, user := ua.id, value := v,
                double_entry_id := some (s.nextTxId + 1) } ∨
          x = { id := s.nextTxId + 1, user := ub.id, value := -v,
                double_entry_id := some s.nextTxId } := by
        simpa [List.mem_append, or_assoc] using hx
      rcases hx3 with hx1 | hx1 | hx1
      · obtain ⟨t2, ht2, hprops⟩ := hinv x hx1 d hd
        exact ⟨t2, List.mem_append_left _ (List.mem_append_left _ ht2), hprops⟩
      · subst hx1
        have hd1 : s.nextTxId + 1 = d := by simpa using hd
        subst hd1
        refine ⟨{ id := s.nextTxId + 1, user := ub.id, value := -v,
                  double_entry_id := some s.nextTxId }, by simp, rfl, rfl, rfl, ?_⟩
        exact huser
      · subst hx1
        have hd1 : s.nextTxId = d := by simpa using hd
        subst hd1
        refine ⟨{ id := s.nextTxId, user := ua.id, value := v,
                  double_entry_id := some (s.nextTxId + 1) }, by simp, rfl,
                (neg_neg v).symm, rfl, ?_⟩
        exact Ne.symm huser
    · apply txIdsBounded_of_eq (n := s.nextTxId + 1 + 1) htxs rfl
      intro x hx
      have hx3 : x ∈ s.transactions ∨
          x = { id := s.nextTxId, user := ua.id, value := v,
                double_entry_id := some (s.nextTxId + 1) } ∨
          x = { id := s.nextTxId + 1, user := ub.id, value := -v,
                double_entry_id := some s.nextTxId } := by
        simpa [List.mem_append, or_assoc] using hx
      rcases hx3 with hx1 | hx1 | hx1
      · have := hb x hx1
        omega
      · subst hx1
        show s.nextTxId < s.nextTxId + 1 + 1
        omega
      · subst hx1
        show s.nextTxId + 1 < s.nextTxId + 1 + 1
        omega

theorem applyOp_preserves_invariants (cfg : Config) (s : Store) (op : Op)
    (hop : op.noSelf) (hinv : PairInv s) (hb : TxIdsBounded s) :
    PairInv (applyOp cfg s op).1 ∧ TxIdsBounded (applyOp cfg s op).1 := by
  cases op with
  | single uid v => exact create_single_preserves_invariants cfg s uid v hinv hb
  | double a b v => exact create_double_preserves_invariants cfg s a b v hop hinv hb

theorem runOps_preserves_invariants (cfg : Config) :
    ∀ (ops : List Op) (s : Store), PairInv s → TxIdsBounded s →
      (∀ op ∈ ops, op.noSelf) →
      PairInv (runOps cfg s ops) ∧ TxIdsBounded (runOps cfg s ops) := by
  intro ops
  induction ops with
  | nil =>
    intro s hinv hb _
    exact ⟨hinv, hb⟩
  | cons op rest ih =>
    intro s hinv hb hops
    have hstep := applyOp_preserves_invariants cfg s op (hops op (by simp)) hinv hb
    exact ih (applyOp cfg s op).1 hstep.1 hstep.2
      (fun o ho => hops o (List.mem_cons_of_mem _ ho))

/-- C3 amended: after any sequence of creation operations in which every double
entry names two distinct users, the pairing invariant holds: every transaction
with double_entry_id = D has a stored partner D with the negated value that
points back and belongs to a different user; and single-entry creation always
returns a record with double_entry_id null.  (As stated the claim fails: a
self-transfer is accepted and links two rows of the same user.) -/
theorem c3_pair_invariant_without_self_transfers (cfg : Config) (s : Store)
    (ops : List Op) (hinv : PairInv s) (hb : TxIdsBounded s)
    (hops : ∀ op ∈ ops, op.noSelf) :
    PairInv (runOps cfg s ops) ∧ TxIdsBounded (runOps cfg s ops) ∧
    ∀ s0 s1 uid v t, create_single_entry_transaction cfg s0 uid v = (s1, Except.ok t) →
      t.double_entry_id = none := by
  refine ⟨(runOps_preserves_invariants cfg ops s hinv hb hops).1,
    (runOps_preserves_invariants cfg ops s hinv hb hops).2, ?_⟩
  intro s0 s1 uid v t h
  have hbody := atomic_ok_inv
    (show atomic s0 (singleEntryBody cfg uid v) = (s1, Except.ok t) from h)
  obtain ⟨user, hg, hv, ht, hsb⟩ := singleEntryBody_ok hbody
  rw [ht]

/-- Witness for C3 amended at a concrete input: a transfer between users 1 and
2 followed by a single entry preserves the pairing invariant. -/
theorem c3_pair_invariant_without_self_transfers_witness :
    PairInv (runOps cfgW storeTwoW [Op.double 1 2 5, Op.single 1 3]) :=
  (c3_pair_invariant_without_self_transfers cfgW storeTwoW
    [Op.double 1 2 5, Op.single 1 3] (by decide) (by decide) (by decide)).1

/-- C7 amended: the status of POST /users/\x7bid\x7d/transactions is 400 when
value is missing, else 404 when any referenced user is missing (the user
lookups run before value validation, so a missing user wins over a zero or
out-of-range value), else 400 on a zero value, else 403 on a value with either
leg out of the configured range, else 201. -/
theorem c7_create_status_mapping (cfg : Config) (s : Store) (user_pk : Nat)
    (req : TxRequest) :
    (userTransactions_create cfg s user_pk req).2.1 = specStatus cfg s user_pk req := by
  unfold userTransactions_create specStatus
  rcases req with ⟨val, dst⟩
  cases val with
  | none => rfl
  | some v =>
    cases dst with
    | none =>
      simp only
      unfold create_single_entry_transaction atomic singleEntryBody
      rcases hg : getUser s user_pk with _ | user
      · simp [hg, statusOfError]
      · simp only [hg, Option.isSome_some]
        unfold validate
        by_cases h0 : v = 0
        · simp [h0, statusOfError]
        · by_cases hr : v < cfg.lower ∨ cfg.upper < v
          · simp [h0, hr, statusOfError, hg]
          · simp [h0, hr, statusOfError, hg]
    | some dst =>
      simp only
      unfold create_double_entry_transactions atomic doubleEntryBody
      rcases hgd : getUser s dst with _ | du
      · simp [hgd, statusOfError]
      · rcases hgs : getUser s user_pk with _ | su
        · simp [hgd, hgs, statusOfError]
        · simp only [hgd, hgs]
          unfold validate
          by_cases h0 : v = 0
          · simp [h0, statusOfError, hgd, hgs]
          · have h0n : ¬ (-v = 0) := by
              intro hh
              exact h0 (neg_eq_zero.mp hh)
            by_cases hr : v < cfg.lower ∨ cfg.upper < v
            · simp [h0, hr, statusOfError, hgd, hgs]
            · by_cases hr2 : -v < cfg.lower ∨ cfg.upper < -v
              · simp [h0, h0n, hr, hr2, statusOfError, hgd, hgs]
              · simp [h0, h0n, hr, hr2, statusOfError, hgd, hgs]

/-- Witness for C4 at a concrete input: transferring 5 between the two users of
the two-user store credits user 1 with 5 and debits user 2 with 5. -/
theorem c4_double_entry_success_effect_witness :
    getUser (create_double_entry_transactions cfgW storeTwoW 1 2 5).1 1 =
      some { id := 1, name := "a", mail_address := none, balance := 5, active := true } ∧
    getUser (create_double_entry_transactions cfgW storeTwoW 1 2 5).1 2 =
      some { id := 2, name := "b", mail_address := none, balance := -5, active := true } := by
  have happ := c4_double_entry_success_effect cfgW storeTwoW
    (create_double_entry_transactions cfgW storeTwoW 1 2 5).1 1 2 5
    { id := 0, user := 1, value := 5, double_entry_id := some 1 } aliceW bobW
    (by decide) rfl rfl rfl
  refine ⟨?_, ?_⟩
  · have h1 := happ.1
    simpa [aliceW] using h1
  · have h2 := happ.2.1
    simpa [bobW] using h2

theorem get_limit_le (m d : Nat) (p : Option Int) (hd : d ≤ m) : get_limit m d p ≤ m := by
  unfold get_limit
  cases p with
  | none => exact hd
  | some n =>
    by_cases h : n ≤ 0
    · simp only [if_pos h]
      exact hd
    · simp only [if_neg h]
      exact Nat.min_le_right _ _

/-- C9: each of the three list endpoints paginates with a hard maximum page
size of 250 and a default of 100 when the limit parameter is unspecified, and
produces the page shape whose overall_count is the total matching count and
whose entries are the offset/limit slice of the matching rows. -/
theorem c9_pagination_shape (s : Store) (q : PageQuery) (user_pk : Nat) (u : User)
    (hu : getUser s user_pk = some u) :
    ((users_list s q).overall_count = (s.users.filter (fun x => x.active)).length ∧
      (users_list s q).limit ≤ 250 ∧
      (q.limit = none → (users_list s q).limit = 100) ∧
      (users_list s q).entries =
        (((s.users.filter (fun x => x.active)).drop (users_list s q).offset).take
          (users_list s q).limit).map User.to_dict) ∧
    ((transactions_list s q).overall_count = s.transactions.length ∧
      (transactions_list s q).limit ≤ 250 ∧
      (q.limit = none → (transactions_list s q).limit = 100) ∧
      (transactions_list s q).entries =
        (s.transactions.drop (transactions_list s q).offset).take
          (transactions_list s q).limit) ∧
    ∃ page, user_transactions_list s user_pk q = (200, some page) ∧
      page.overall_count = (s.transactions.filter (fun t => t.user == user_pk)).length ∧
      page.limit ≤ 250 ∧ (q.limit = none → page.limit = 100) ∧
      page.entries = ((s.transactions.filter (fun t => t.user == user_pk)).drop
        page.offset).take page.limit := by
  have hid := getUser_id hu
  subst hid
  refine ⟨⟨rfl, get_limit_le 250 100 q.limit (by norm_num), ?_, rfl⟩,
          ⟨rfl, get_limit_le 250 100 q.limit (by norm_num), ?_, rfl⟩, ?_⟩
  · intro h
    show get_limit 250 100 q.limit = 100
    rw [h]
    rfl
  · intro h
    show get_limit 250 100 q.limit = 100
    rw [h]
    rfl
  · unfold user_transactions_list
    rw [hu]
    refine ⟨_, rfl, rfl, get_limit_le 250 100 q.limit (by norm_num), ?_, rfl⟩
    intro h
    show get_limit 250 100 q.limit = 100
    rw [h]
    rfl

/-- Witness for C9 at a concrete input: with no limit parameter the user list
page of the one-user store uses the default limit 100. -/
theorem c9_pagination_shape_witness :
    (users_list storeOneW { limit := none, offset := none }).limit = 100 :=
  (c9_pagination_shape storeOneW { limit := none, offset := none } 1 aliceW
    rfl).1.2.2.1 rfl

/-- C10: GET /users/\x7bid\x7d returns the full record of the user found by id
with no filter on the active flag (a soft-disabled user is still retrievable),
while the user list endpoint only serves entries of users with active = true. -/
theorem c10_retrieve_ignores_active_flag (s : Store) (pk : Nat) (u : User)
    (q : PageQuery) (h : getUser s pk = some u) :
    users_retrieve s pk = (200, some u.to_full_dict) ∧
    ∀ x ∈ (users_list s q).entries, ∃ u2 ∈ s.users, u2.active = true ∧ x = u2.to_dict := by
  constructor
  · unfold users_retrieve
    rw [h]
  · intro x hx
    have hx2 : x ∈ (((s.users.filter (fun y => y.active)).drop
        (get_offset q.offset)).take (get_limit 250 100 q.limit)).map User.to_dict := hx
    obtain ⟨y, hy, hxy⟩ := List.mem_map.mp hx2
    have hy2 : y ∈ (s.users.filter (fun z => z.active)).drop (get_offset q.offset) :=
      List.take_subset _ _ hy
    have hy3 : y ∈ s.users.filter (fun z => z.active) := List.drop_subset _ _ hy2
    have hy4 := List.mem_filter.mp hy3
    exact ⟨y, hy4.1, hy4.2, hxy.symm⟩

/-- Witness for C10 at a concrete input: the store's only user is inactive and
is still returned in full by retrieve. -/
theorem c10_retrieve_ignores_active_flag_witness :
    users_retrieve storeInactiveW 3 = (200, some (User.to_full_dict carolW)) :=
  (c10_retrieve_ignores_active_flag storeInactiveW 3 carolW
    { limit := none, offset := none } rfl).1

end Strichliste
